import Mathlib

/-!
Verification of the cubic-regularization optimizer (`src/cubic_reg.py`).

Shallow embedding conventions:
* Python floats are modelled as exact rationals (`ℚ`); float vectors as
  `Fin n → ℚ`; Hessians as `Matrix (Fin n) (Fin n) ℚ`.
* `np.linalg.norm`, `np.linalg.cholesky` success, `scipy.linalg.cho_solve`
  and `scipy.linalg.eigh` are numerical library routines; where a claim
  needs them they are passed in as explicit function parameters together
  with hypotheses stating exactly the contract the library guarantees
  (for instance: columns of the `eigh` output are eigenvectors for the
  ascending eigenvalues).
* Loops are modelled by structural recursion; where Python counts an
  index `iter` up to a bound, the model carries the remaining number of
  permitted iterations (`remaining`/`fuel`) so that the recursion is
  structural and every definition stays executable.
* Python exceptions (`ValueError` at construction, `UnboundLocalError`,
  `RuntimeError`) are modelled with `Except`.
-/

namespace CubicRegSpec

/-- Vectors of length `n`, modelling 1-D numpy arrays of floats. -/
abbrev Vec (n : ℕ) := Fin n → ℚ

/-- `np.matmul(u.T, v)` for two vectors: the dot product. -/
def dot {n : ℕ} (u v : Vec n) : ℚ := ∑ i, u i * v i

/-!
## Constructor-time validation: `Algorithm._check_inputs` (cubic_reg.py lines 74-106)

The `Config` structure collects exactly the constructor data that
`_check_inputs` looks at.  The callable probes (`self.f(self.x0)` etc.,
lines 86-102) only test that the supplied callables accept `x0`; the
claims under verification quantify over configurations whose callables
are compatible, so those probes are modelled as always succeeding and
are skipped.  The presence of `f`/`gradient`/`hessian` (line 82) is kept
as booleans; `conv_criterion` and `aux_method` are kept as the strings
the source compares against.
-/

structure Config where
  /-- `len(self.x0)` -/
  x0len : ℕ
  /-- `self.f is not None` -/
  hasF : Bool
  /-- `self.gradient is not None` -/
  hasGradient : Bool
  /-- `self.hessian is not None` -/
  hasHessian : Bool
  /-- `self.L0`: `none` models Python `None` -/
  L0 : Option ℚ
  kappa_easy : ℚ
  maxiter : ℤ
  submaxiter : ℤ
  conv_tol : ℚ
  conv_criterion : String
  epsilon : ℚ
  aux_method : String

/-- The exceptions `_check_inputs` can raise, in source order. -/
inductive CheckError
  /-- `ValueError('x0 must have length > 0')`, line 81 -/
  | emptyX0
  /-- `AttributeError(...)`, line 83 -/
  | missingFunctions
  /-- `ValueError('All inputs that are constants must be larger than 0')`, line 85 -/
  | nonPositiveConstant
  /-- `ValueError('Invalid input for convergence criterion')`, line 104 -/
  | invalidConvCriterion
  /-- `ValueError('No such method for solving the auxiliary problem')`, line 106 -/
  | invalidAuxMethod
deriving DecidableEq

/-- `Algorithm._check_inputs` (lines 74-106).  Line 84 reads
`not((not self.L0 or self.L0 > 0) and self.kappa_easy > 0 and
self.maxiter > 0 and self.conv_tol > 0 and self.epsilon > 0)`:
Python's `not self.L0` is true both for `None` and for a supplied `0`,
and `submaxiter` does not appear in the conjunction at all. -/
def checkInputs (c : Config) : Except CheckError Unit :=
  if c.x0len < 1 then .error .emptyX0
  else if ¬ (c.hasF = true ∨ (c.hasGradient = true ∧ c.hasHessian = true)) then
    .error .missingFunctions
  else if ¬ (((c.L0 = none ∨ c.L0 = some 0) ∨ 0 < c.L0.getD 0) ∧
      0 < c.kappa_easy ∧ 0 < c.maxiter ∧ 0 < c.conv_tol ∧ 0 < c.epsilon) then
    .error .nonPositiveConstant
  else if ¬ (c.conv_criterion = "function" ∨ c.conv_criterion = "gradient" ∨
      c.conv_criterion = "decrement") then
    .error .invalidConvCriterion
  else if ¬ (c.aux_method = "trust_region" ∨ c.aux_method = "monotone_norm") then
    .error .invalidAuxMethod
  else .ok ()

/-- A fully valid configuration except that `maxiter = 0`. -/
def cfgMaxiterZero : Config :=
  { x0len := 2, hasF := true, hasGradient := true, hasHessian := true,
    L0 := some 1, kappa_easy := 1/10000, maxiter := 0, submaxiter := 10000,
    conv_tol := 1/100000, conv_criterion := "gradient",
    epsilon := 3/100000000, aux_method := "trust_region" }

/-- Claim C1, counterexample: constructing with `maxiter = 0` and every
other input valid does not succeed and run the loop; `_check_inputs`
raises the non-positive-constant `ValueError`, so no result with
`iteration_count = 0` is ever produced. -/
theorem c1_counterexample :
    checkInputs cfgMaxiterZero = .error .nonPositiveConstant ∧
    checkInputs cfgMaxiterZero ≠ .ok () ∧
    cfgMaxiterZero.maxiter = 0 := by
  refine ⟨?_, ?_, rfl⟩ <;> simp [checkInputs, cfgMaxiterZero]

/-- Claim C1 (amended): supplying `maxiter = 0` (with `x0` non-empty and
the objective data present, so that the earlier checks pass) makes
construction fail at `_check_inputs` with the non-positive-constant
`ValueError`; the run never starts. -/
theorem c1_maxiter_zero_rejected (c : Config) (h1 : 1 ≤ c.x0len)
    (h2 : c.hasF = true ∨ (c.hasGradient = true ∧ c.hasHessian = true))
    (h3 : c.maxiter = 0) :
    checkInputs c = .error .nonPositiveConstant := by
  have hx : ¬ (c.x0len < 1) := by omega
  simp [checkInputs, hx, h2, h3]

/-- Witness for `c1_maxiter_zero_rejected` at the concrete configuration
`cfgMaxiterZero`. -/
theorem c1_maxiter_zero_rejected_witness :
    1 ≤ cfgMaxiterZero.x0len ∧ cfgMaxiterZero.maxiter = 0 ∧
    checkInputs cfgMaxiterZero = .error .nonPositiveConstant :=
  ⟨by decide, rfl, c1_maxiter_zero_rejected cfgMaxiterZero (by decide) (Or.inl rfl) rfl⟩

/-- A fully valid configuration except that `submaxiter = 0` and the
supplied `L0` is `0`. -/
def cfgSubmaxiterZero : Config :=
  { x0len := 2, hasF := true, hasGradient := true, hasHessian := true,
    L0 := some 0, kappa_easy := 1/10000, maxiter := 10000, submaxiter := 0,
    conv_tol := 1/100000, conv_criterion := "gradient",
    epsilon := 3/100000000, aux_method := "trust_region" }

/-- Claim C5, counterexample: a construction whose `submaxiter` is `0`
(non-positive) and whose supplied `L0` is `0` (non-positive) passes
`_check_inputs` without an error: line 84 never mentions `submaxiter`,
and Python's `not self.L0` is true for a supplied `0`. -/
theorem c5_counterexample :
    checkInputs cfgSubmaxiterZero = .ok () ∧
    cfgSubmaxiterZero.submaxiter = 0 ∧
    cfgSubmaxiterZero.L0 = some 0 := by
  refine ⟨?_, rfl, rfl⟩
  simp [checkInputs, cfgSubmaxiterZero]

/-- Claim C5 (amended): with `x0` non-empty, the objective data present
and valid enum strings, `_check_inputs` succeeds exactly when
`kappa_easy`, `maxiter`, `conv_tol` and `epsilon` are positive and the
supplied `L0` is absent, zero, or positive.  `submaxiter` is not
validated at all, and a supplied `L0 = 0` is accepted (Python falsiness),
so those two non-positive values are silently accepted. -/
theorem c5_numeric_validation (c : Config) (h1 : 1 ≤ c.x0len)
    (h2 : c.hasF = true ∨ (c.hasGradient = true ∧ c.hasHessian = true))
    (h3 : c.conv_criterion = "function" ∨ c.conv_criterion = "gradient" ∨
      c.conv_criterion = "decrement")
    (h4 : c.aux_method = "trust_region" ∨ c.aux_method = "monotone_norm") :
    checkInputs c = .ok () ↔
      (((c.L0 = none ∨ c.L0 = some 0) ∨ 0 < c.L0.getD 0) ∧
        0 < c.kappa_easy ∧ 0 < c.maxiter ∧ 0 < c.conv_tol ∧ 0 < c.epsilon) := by
  have hx : ¬ (c.x0len < 1) := by omega
  constructor
  · intro h
    by_contra hnum
    simp only [checkInputs, hx, if_false, h2, not_true_eq_false] at h
    simp [hnum] at h
  · intro hnum
    simp [checkInputs, hx, h2, hnum, h3, h4]

/-- Witness for `c5_numeric_validation` at the concrete configuration
`cfgSubmaxiterZero`: the right-hand side holds there even though
`submaxiter = 0`, so construction succeeds. -/
theorem c5_numeric_validation_witness :
    1 ≤ cfgSubmaxiterZero.x0len ∧ cfgSubmaxiterZero.submaxiter = 0 ∧
    (checkInputs cfgSubmaxiterZero = .ok () ↔
      (((cfgSubmaxiterZero.L0 = none ∨ cfgSubmaxiterZero.L0 = some 0) ∨
          0 < cfgSubmaxiterZero.L0.getD 0) ∧
        0 < cfgSubmaxiterZero.kappa_easy ∧ 0 < cfgSubmaxiterZero.maxiter ∧
        0 < cfgSubmaxiterZero.conv_tol ∧ 0 < cfgSubmaxiterZero.epsilon)) :=
  ⟨by decide, rfl,
    c5_numeric_validation cfgSubmaxiterZero (by decide) (Or.inl rfl)
      (Or.inr (Or.inl rfl)) (Or.inl rfl)⟩

/-!
## The inner weight search: `CubicRegularization._find_x_new` (lines 235-260)

The auxiliary subproblem solver is a separate object in the source
(`_AuxiliaryProblem(x_old, grad, hess, mk, ...).solve()`); the model
passes it in as a function `solve` of the weight `mk` (the remaining
constructor arguments are fixed for the whole inner loop).  Its result
is a step, a failure flag and the Hessian-conditioning diagnostic.

`np.linalg.norm` is irrational on most inputs, so the cubic model
(line 193) takes the value `ns` of the norm of `s` as an argument; the
driver-level model threads a norm oracle `nrm` through.

Loop shape (lines 243-259): `iter = 0; mk = max(0.5*mk, L0)`; while
`not upper_approximation and iter < submaxiter`: double `mk` unless
`iter == 0`, solve, form `x_new = x_old + s`, test the cubic upper
bound, `iter += 1`, and `raise RuntimeError` as soon as
`iter == submaxiter` (even when the bound test just passed).  The model
replaces the upward counter by `remaining = submaxiter - iter`, so that
attempt `i` (0-based) runs iff `remaining ≥ 1` and the `RuntimeError`
fires when `remaining` hits 0; the weight used at attempt `i` is
`max(0.5*mk, L0) * 2^i` (`attemptWeight`).  If the loop body never runs
(`submaxiter ≤ 0`), the final `return x_new, mk, flag, hess_cond` reads
`x_new`, `flag`, `hess_cond` before any assignment: an
`UnboundLocalError`, modelled by `FindErr.unboundLocal`.
-/

/-- Result triple of `_AuxiliaryProblem.solve`: step, flag, diagnostic. -/
structure AuxOut (n : ℕ) where
  s : Vec n
  flag : ℤ
  hessCond : ℚ

/-- The two ways `_find_x_new` can blow up. -/
inductive FindErr
  /-- `UnboundLocalError`: the `while` body never ran (`submaxiter <= 0`)
  and the `return` reads unassigned locals. -/
  | unboundLocal
  /-- `RuntimeError('Could not find cubic upper approximation')`, line 259. -/
  | couldNotFindUpper
deriving DecidableEq

/-- Result of a successful `_find_x_new`: `x_new, mk, flag, hess_cond`
(the accepted weight is named `mkOut` because `mk` is Lean's structure
constructor name). -/
structure FindOut (n : ℕ) where
  xnew : Vec n
  mkOut : ℚ
  flag : ℤ
  hessCond : ℚ

/-- `CubicRegularization._cubic_approx` (line 193):
`f_x + grad_x·s + 0.5·(hess_x·s)·s + mk/6·‖s‖³`, with `ns` the value of
`np.linalg.norm(s)`. -/
def cubicApprox {n : ℕ} (fX : ℚ) (g : Vec n) (H : Matrix (Fin n) (Fin n) ℚ)
    (s : Vec n) (mk ns : ℚ) : ℚ :=
  fX + dot g s + (1/2) * dot (H.mulVec s) s + mk/6 * ns ^ 3

/-- The weight handed to the auxiliary solver at 0-based inner attempt
`i`: `mk0` on the first attempt, doubled before each later attempt
(lines 245-249). -/
def attemptWeight (mk0 : ℚ) (i : ℕ) : ℚ := mk0 * 2 ^ i

/-- The `while` loop of `_find_x_new` (lines 246-259); `i` is the
attempt index, `remaining` the number of attempts the bound
`submaxiter` still permits. -/
def findLoop {n : ℕ} (solve : ℚ → AuxOut n) (f : Vec n → ℚ) (nrm : Vec n → ℚ)
    (x : Vec n) (g : Vec n) (H : Matrix (Fin n) (Fin n) ℚ) (mk0 : ℚ) :
    ℕ → ℕ → Except FindErr (FindOut n)
  | _, 0 => .error .unboundLocal
  | i, remaining + 1 =>
    let mk := attemptWeight mk0 i
    let a := solve mk
    let xnew : Vec n := fun j => x j + a.s j
    if remaining = 0 then .error .couldNotFindUpper
    else if f xnew ≤ cubicApprox (f x) g H a.s mk (nrm a.s) then
      .ok ⟨xnew, mk, a.flag, a.hessCond⟩
    else findLoop solve f nrm x g H mk0 (i + 1) remaining

/-- `CubicRegularization._find_x_new` (lines 235-260): floor the weight
at `L0` (line 245) and run the inner search. -/
def findXNew {n : ℕ} (submaxiter : ℤ) (solve : ℚ → AuxOut n) (f : Vec n → ℚ)
    (nrm : Vec n → ℚ) (x : Vec n) (g : Vec n) (H : Matrix (Fin n) (Fin n) ℚ)
    (mkIn L0 : ℚ) : Except FindErr (FindOut n) :=
  findLoop solve f nrm x g H (max (mkIn / 2) L0) 0 submaxiter.toNat

/-- Claim C6: the inner search starts from `max(0.5·mk, L0)`, uses that
weight as-is on the first attempt, doubles it before every later
attempt, and consequently every weight handed to the auxiliary solver
(`attemptWeight (max (mkIn/2) L0) i`, the `solve` argument of
`findLoop`/`findXNew`) stays at or above the floor `L0`. -/
theorem c6_weight_never_below_floor (mkIn L0 : ℚ) (i : ℕ) (hL0 : 0 < L0) :
    attemptWeight (max (mkIn / 2) L0) 0 = max (mkIn / 2) L0 ∧
    attemptWeight (max (mkIn / 2) L0) (i + 1) =
      2 * attemptWeight (max (mkIn / 2) L0) i ∧
    L0 ≤ attemptWeight (max (mkIn / 2) L0) i := by
  refine ⟨by simp [attemptWeight], by simp [attemptWeight, pow_succ]; ring, ?_⟩
  have hmax : L0 ≤ max (mkIn / 2) L0 := le_max_right _ _
  have hpos : (0:ℚ) ≤ max (mkIn / 2) L0 := le_trans hL0.le hmax
  calc L0 ≤ max (mkIn / 2) L0 := hmax
    _ ≤ max (mkIn / 2) L0 * 2 ^ i :=
        le_mul_of_one_le_right hpos (one_le_pow₀ one_le_two)
    _ = attemptWeight (max (mkIn / 2) L0) i := rfl

/-- Witness for `c6_weight_never_below_floor` at `mkIn = 1`, `L0 = 1`,
attempt `i = 0`. -/
theorem c6_weight_never_below_floor_witness :
    (0:ℚ) < 1 ∧ attemptWeight (max ((1:ℚ) / 2) 1) 0 = max ((1:ℚ) / 2) 1 ∧
    attemptWeight (max ((1:ℚ) / 2) 1) 1 = 2 * attemptWeight (max ((1:ℚ) / 2) 1) 0 ∧
    (1:ℚ) ≤ attemptWeight (max ((1:ℚ) / 2) 1) 0 :=
  ⟨by norm_num, c6_weight_never_below_floor 1 1 0 (by norm_num)⟩

/-- Claim C10: construction with `submaxiter ≤ 0` (all other inputs
valid) passes `_check_inputs`, and the first call of `_find_x_new` then
fails with the `UnboundLocalError` model (`FindErr.unboundLocal`) —
the inner `while` body never executes, so `x_new`, `flag` and
`hess_cond` are read unassigned — not with the documented
`RuntimeError('Could not find cubic upper approximation')`. -/
theorem c10_submaxiter_unvalidated (c : Config) (h1 : 1 ≤ c.x0len)
    (h2 : c.hasF = true ∨ (c.hasGradient = true ∧ c.hasHessian = true))
    (h3 : c.conv_criterion = "function" ∨ c.conv_criterion = "gradient" ∨
      c.conv_criterion = "decrement")
    (h4 : c.aux_method = "trust_region" ∨ c.aux_method = "monotone_norm")
    (hL0 : (c.L0 = none ∨ c.L0 = some 0) ∨ 0 < c.L0.getD 0)
    (hk : 0 < c.kappa_easy) (hm : 0 < c.maxiter) (hc : 0 < c.conv_tol)
    (he : 0 < c.epsilon) (hsub : c.submaxiter ≤ 0) :
    checkInputs c = .ok () ∧
    ∀ (n : ℕ) (solve : ℚ → AuxOut n) (f nrm : Vec n → ℚ) (x g : Vec n)
      (H : Matrix (Fin n) (Fin n) ℚ) (mkIn L0 : ℚ),
      findXNew c.submaxiter solve f nrm x g H mkIn L0 = .error .unboundLocal ∧
      findXNew c.submaxiter solve f nrm x g H mkIn L0 ≠ .error .couldNotFindUpper := by
  have hx : ¬ (c.x0len < 1) := by omega
  constructor
  · simp [checkInputs, hx, h2, h3, h4, hL0, hk, hm, hc, he]
  · intro n solve f nrm x g H mkIn L0
    have ht : c.submaxiter.toNat = 0 := Int.toNat_of_nonpos hsub
    constructor
    · simp [findXNew, ht, findLoop]
    · simp [findXNew, ht, findLoop]

/-- Witness for `c10_submaxiter_unvalidated` at the concrete
configuration `cfgSubmaxiterZero` and a concrete one-dimensional
`_find_x_new` instance. -/
theorem c10_submaxiter_unvalidated_witness :
    cfgSubmaxiterZero.submaxiter ≤ 0 ∧
    checkInputs cfgSubmaxiterZero = .ok () ∧
    findXNew (n := 1) cfgSubmaxiterZero.submaxiter
        (fun _ => ⟨fun _ => 0, 0, -1⟩) (fun _ => 0) (fun _ => 0)
        (fun _ => 2) (fun _ => 0) 0 1 1 = .error .unboundLocal := by
  have h := c10_submaxiter_unvalidated cfgSubmaxiterZero (by decide)
    (Or.inl rfl) (Or.inr (Or.inl rfl)) (Or.inl rfl)
    (Or.inl (Or.inr rfl)) (by norm_num [cfgSubmaxiterZero])
    (by norm_num [cfgSubmaxiterZero]) (by norm_num [cfgSubmaxiterZero])
    (by norm_num [cfgSubmaxiterZero]) (by norm_num [cfgSubmaxiterZero])
  exact ⟨by decide, h.1,
    (h.2 1 (fun _ => ⟨fun _ => 0, 0, -1⟩) (fun _ => 0) (fun _ => 0)
      (fun _ => 2) (fun _ => 0) 0 1 1).1⟩

/-!
## The outer loop: `CubicRegularization.cubic_reg` (lines 195-233)

The driver owns the iterate state; each outer iteration calls
`_find_x_new`, refreshes gradient/Hessian/eigen-data at the new point,
appends the conditioning diagnostic, evaluates convergence, and only
then — when the flag was zero — appends `x_new` to the trace and
increments `iter`.  A non-zero flag returns immediately, before the
append.  The model abstracts one outer step as
`findStep : Vec n → ℚ → Except FindErr (FindOut n)` (point and incoming
weight; instantiated with `findXNew` below) and the convergence check as
`conv : Vec n → Vec n → Bool` (old and new point; the gradient-based
criteria read state refreshed at the new point, which a caller bakes
into `conv`).  The final eigenvalue diagnostic and warning printing
(lines 225-232) do not change the returned data and are omitted.
-/

/-- Return value of `cubic_reg`:
`x_new, intermediate_points, iter, flag, intermediate_hess_cond`. -/
structure RunOut (n : ℕ) where
  x : Vec n
  trace : List (Vec n)
  iter : ℕ
  flag : ℤ
  hessConds : List ℚ

/-- The `while` loop of `cubic_reg` (lines 209-224); `fuel` is the
number of outer iterations `maxiter` still permits, `iter` the count of
accepted iterations so far. -/
def cubicRegLoop {n : ℕ} (findStep : Vec n → ℚ → Except FindErr (FindOut n))
    (conv : Vec n → Vec n → Bool) :
    Vec n → ℚ → List (Vec n) → List ℚ → ℕ → ℕ → Except FindErr (RunOut n)
  | x, _, pts, hcs, iter, 0 => .ok ⟨x, pts, iter, 0, hcs⟩
  | x, mk, pts, hcs, iter, fuel + 1 =>
    match findStep x mk with
    | .error e => .error e
    | .ok out =>
      let hcs' := hcs ++ [out.hessCond]
      if out.flag ≠ 0 then .ok ⟨out.xnew, pts, iter, out.flag, hcs'⟩
      else if conv x out.xnew then .ok ⟨out.xnew, pts ++ [out.xnew], iter + 1, 0, hcs'⟩
      else cubicRegLoop findStep conv out.xnew out.mkOut (pts ++ [out.xnew]) hcs' (iter + 1) fuel

/-- `CubicRegularization.cubic_reg` (lines 195-233): start at `x0` with
weight `L0` and trace `[x0]`. -/
def cubicReg {n : ℕ} (maxiter : ℤ) (findStep : Vec n → ℚ → Except FindErr (FindOut n))
    (conv : Vec n → Vec n → Bool) (x0 : Vec n) (L0 : ℚ) : Except FindErr (RunOut n) :=
  cubicRegLoop findStep conv x0 L0 [x0] [] 0 maxiter.toNat

/-- If every failing auxiliary solve returns the zero step (which is
what `_compute_s` does on Cholesky breakdown), then a flagged
`_find_x_new` result leaves the iterate where it was: `x_new = x_old`. -/
theorem findLoop_flagged_fixes_x {n : ℕ} (solve : ℚ → AuxOut n)
    (f nrm : Vec n → ℚ) (x g : Vec n) (H : Matrix (Fin n) (Fin n) ℚ) (mk0 : ℚ)
    (hs : ∀ mk, (solve mk).flag ≠ 0 → (solve mk).s = fun _ => 0) :
    ∀ (remaining i : ℕ) (out : FindOut n),
      findLoop solve f nrm x g H mk0 i remaining = .ok out →
      out.flag ≠ 0 → out.xnew = x := by
  intro remaining
  induction remaining with
  | zero => intro i out h; simp [findLoop] at h
  | succ m ih =>
    intro i out h hflag
    rw [findLoop] at h
    by_cases hm : m = 0
    · simp [hm] at h
    · simp only [hm, if_false] at h
      by_cases hub : f (fun j => x j + (solve (attemptWeight mk0 i)).s j) ≤
          cubicApprox (f x) g H (solve (attemptWeight mk0 i)).s
            (attemptWeight mk0 i) (nrm (solve (attemptWeight mk0 i)).s)
      · rw [if_pos hub] at h
        cases h
        have hz := hs (attemptWeight mk0 i) hflag
        funext j
        simp [hz]
      · rw [if_neg hub] at h
        exact ih (i + 1) out h hflag

/-- Loop invariant for `cubicRegLoop`: starting from a trace whose last
entry is the current point and whose length is `iter + 1`, a flagged
exit returns the last accepted iterate as the final point, without
appending it again. -/
theorem cubicRegLoop_flagged_exit {n : ℕ}
    (findStep : Vec n → ℚ → Except FindErr (FindOut n))
    (conv : Vec n → Vec n → Bool) (d : Vec n)
    (hstep : ∀ x mk out, findStep x mk = .ok out → out.flag ≠ 0 → out.xnew = x) :
    ∀ (fuel : ℕ) (x : Vec n) (mk : ℚ) (pts : List (Vec n)) (hcs : List ℚ)
      (iter : ℕ) (r : RunOut n),
      pts.getLast?.getD d = x → pts.length = iter + 1 →
      cubicRegLoop findStep conv x mk pts hcs iter fuel = .ok r →
      r.flag ≠ 0 →
      r.x = r.trace.getLast?.getD d ∧ r.trace.length = r.iter + 1 := by
  intro fuel
  induction fuel with
  | zero =>
    intro x mk pts hcs iter r _ _ hrun hflag
    rw [cubicRegLoop] at hrun
    cases hrun
    simp at hflag
  | succ m ih =>
    intro x mk pts hcs iter r hlast hlen hrun hflag
    rw [cubicRegLoop] at hrun
    cases hout : findStep x mk with
    | error e => rw [hout] at hrun; cases hrun
    | ok out =>
      rw [hout] at hrun
      dsimp only at hrun
      by_cases hf : out.flag ≠ 0
      · rw [if_pos hf] at hrun
        cases hrun
        have hx : out.xnew = x := hstep x mk out hout hf
        exact ⟨by rw [hx, hlast], by rw [hlen]⟩
      · rw [if_neg hf] at hrun
        by_cases hc : conv x out.xnew
        · rw [if_pos hc] at hrun
          cases hrun
          simp at hflag
        · rw [if_neg hc] at hrun
          refine ih out.xnew out.mkOut (pts ++ [out.xnew]) (hcs ++ [out.hessCond])
            (iter + 1) r ?_ ?_ hrun hflag
          · simp
          · simp [hlen]

/-- Claim C9: run the driver with `_find_x_new` built on any auxiliary
solver whose failing solves return the zero step (`hsolve`; the
trust-region `_compute_s` has this shape).  Whenever the run returns a
non-zero flag, the final point equals the last accepted iterate — the
last element of the returned trace — and that final point was not
appended again: the trace holds exactly `iter + 1` points (`x0` plus the
`iter` accepted ones).  Moreover the cubic upper-bound test that let the
zero step out of the inner loop holds with equality: the cubic model at
a zero step equals `f(x_old)` exactly. -/
theorem c9_flagged_run_returns_last_accepted {n : ℕ} (submaxiter maxiter : ℤ)
    (solve : Vec n → ℚ → AuxOut n) (f nrm : Vec n → ℚ)
    (gO : Vec n → Vec n) (HO : Vec n → Matrix (Fin n) (Fin n) ℚ)
    (conv : Vec n → Vec n → Bool) (x0 : Vec n) (L0 : ℚ) (r : RunOut n)
    (hsolve : ∀ x mk, (solve x mk).flag ≠ 0 → (solve x mk).s = fun _ => 0)
    (hnrm : nrm (fun _ => 0) = 0)
    (hrun : cubicReg maxiter
        (fun x mk => findXNew submaxiter (solve x) f nrm x (gO x) (HO x) mk L0)
        conv x0 L0 = .ok r)
    (hflag : r.flag ≠ 0) :
    r.x = r.trace.getLast?.getD x0 ∧ r.trace.length = r.iter + 1 ∧
    ∀ (y : Vec n) (mk : ℚ),
      cubicApprox (f y) (gO y) (HO y) (fun _ => 0) mk (nrm (fun _ => 0)) = f y := by
  have hstep : ∀ (x : Vec n) (mk : ℚ) (out : FindOut n),
      findXNew submaxiter (solve x) f nrm x (gO x) (HO x) mk L0 = .ok out →
      out.flag ≠ 0 → out.xnew = x := by
    intro x mk out h hf
    exact findLoop_flagged_fixes_x (solve x) f nrm x (gO x) (HO x)
      (max (mk / 2) L0) (hsolve x) submaxiter.toNat 0 out h hf
  have main := cubicRegLoop_flagged_exit
    (fun x mk => findXNew submaxiter (solve x) f nrm x (gO x) (HO x) mk L0)
    conv x0 hstep maxiter.toNat x0 L0 [x0] [] 0 r (by simp) (by simp) hrun hflag
  refine ⟨main.1, main.2, ?_⟩
  intro y mk
  simp [cubicApprox, dot, hnrm]

/-- Witness for `c9_flagged_run_returns_last_accepted`: a 1-dimensional
run from `x0 = (2)` whose auxiliary solver always fails with a zero step
and flag `1`; the run returns flag `1`, final point `(2)`, trace `[(2)]`
of length `1 = iter + 1`. -/
theorem c9_flagged_run_returns_last_accepted_witness :
    (∀ (x : Vec 1) (mk : ℚ),
      ((fun (_ : Vec 1) (_ : ℚ) => (⟨fun _ => 0, 1, -1⟩ : AuxOut 1)) x mk).flag ≠ 0 →
      ((fun (_ : Vec 1) (_ : ℚ) => (⟨fun _ => 0, 1, -1⟩ : AuxOut 1)) x mk).s = fun _ => 0) ∧
    cubicReg 3
      (fun x mk => findXNew 5 ((fun (_ : Vec 1) (_ : ℚ) => (⟨fun _ => 0, 1, -1⟩ : AuxOut 1)) x)
        (fun _ => 0) (fun _ => 0) x ((fun _ => (fun _ => 0 : Vec 1)) x)
        ((fun _ => (0 : Matrix (Fin 1) (Fin 1) ℚ)) x) mk 1)
      (fun _ _ => false) (fun _ => 2) 1 =
      .ok ⟨fun _ => (2:ℚ) + 0, [fun _ => (2:ℚ)], 0, 1, [-1]⟩ ∧
    ((⟨fun _ => (2:ℚ) + 0, [fun _ => (2:ℚ)], 0, 1, [-1]⟩ : RunOut 1).x =
      (⟨fun _ => (2:ℚ) + 0, [fun _ => (2:ℚ)], 0, 1, [-1]⟩ : RunOut 1).trace.getLast?.getD (fun _ => 2) ∧
     (⟨fun _ => (2:ℚ) + 0, [fun _ => (2:ℚ)], 0, 1, [-1]⟩ : RunOut 1).trace.length =
      (⟨fun _ => (2:ℚ) + 0, [fun _ => (2:ℚ)], 0, 1, [-1]⟩ : RunOut 1).iter + 1 ∧
     ∀ (y : Vec 1) (mk : ℚ),
      cubicApprox ((fun (_ : Vec 1) => (0:ℚ)) y) ((fun _ => (fun _ => 0 : Vec 1)) y)
        ((fun _ => (0 : Matrix (Fin 1) (Fin 1) ℚ)) y) (fun _ => 0) mk
        ((fun (_ : Vec 1) => (0:ℚ)) (fun _ => 0)) = (fun (_ : Vec 1) => (0:ℚ)) y) := by
  have hsolve : ∀ (x : Vec 1) (mk : ℚ),
      ((fun (_ : Vec 1) (_ : ℚ) => (⟨fun _ => 0, 1, -1⟩ : AuxOut 1)) x mk).flag ≠ 0 →
      ((fun (_ : Vec 1) (_ : ℚ) => (⟨fun _ => 0, 1, -1⟩ : AuxOut 1)) x mk).s = fun _ => 0 :=
    fun _ _ _ => rfl
  have hrun : cubicReg 3
      (fun x mk => findXNew 5 ((fun (_ : Vec 1) (_ : ℚ) => (⟨fun _ => 0, 1, -1⟩ : AuxOut 1)) x)
        (fun _ => 0) (fun _ => 0) x ((fun _ => (fun _ => 0 : Vec 1)) x)
        ((fun _ => (0 : Matrix (Fin 1) (Fin 1) ℚ)) x) mk 1)
      (fun _ _ => false) (fun _ => 2) 1 =
      .ok ⟨fun _ => (2:ℚ) + 0, [fun _ => (2:ℚ)], 0, 1, [-1]⟩ := by
    norm_num [cubicReg, cubicRegLoop, findXNew, findLoop, attemptWeight, cubicApprox, dot]
  refine ⟨hsolve, hrun, ?_⟩
  exact c9_flagged_run_returns_last_accepted 5 3 _ _ _ _ _ _ _ 1 _ hsolve rfl hrun
    (by norm_num)

/-!
## Trust-region Cholesky step: `_AuxiliaryProblem._compute_s` (lines 288-305)

```python
try:
    L = np.linalg.cholesky(self.H_lambda(lambduh)).T
except:
    self.lambda_const *= 2
    try:
        s, L = self._compute_s(self.lambda_nplus + self.lambda_const)
    except:
        return np.zeros_like(self.grad_x), [], 1
s = scipy.linalg.cho_solve((L, False), -self.grad_x)
return s, L, 0
```

`_compute_s` returns a *three*-element tuple, so the retry line
`s, L = self._compute_s(...)` always raises
`ValueError: too many values to unpack` once the recursive call has
returned, and the bare `except` converts that into the zero-step /
flag-1 return — whatever the recursive call produced.  The model keeps
that behaviour: the recursive result is computed (its `lambda_const`
mutation is kept) and then discarded.

Parameters model the library calls: `cholOK lam` is whether
`np.linalg.cholesky(H + lam*I)` succeeds, `chsolve lam` the
`cho_solve` solution of `(H + lam*I) s = -g`.  `fuel` models Python's
recursion limit; a `RecursionError` at depth 0 is caught by the same
bare `except` and yields the same zero-step flag-1 result. -/

/-- Result of `_compute_s`: the step, whether a Cholesky factor `L` was
produced (`[]` is returned for `L` on failure), the flag, and the value
of the mutated `self.lambda_const`. -/
structure ComputeSOut (n : ℕ) where
  s : Vec n
  hasL : Bool
  flag : ℤ
  lambdaConst : ℚ

/-- `_AuxiliaryProblem._compute_s` (lines 288-305). -/
def computeS {n : ℕ} (cholOK : ℚ → Bool) (chsolve : ℚ → Vec n)
    (lambdaNplus : ℚ) : ℚ → ℚ → ℕ → ComputeSOut n
  | lambdaConst, lambduh, fuel =>
    if cholOK lambduh then ⟨chsolve lambduh, true, 0, lambdaConst⟩
    else
      let c2 := 2 * lambdaConst
      match fuel with
      | 0 => ⟨fun _ => 0, false, 1, c2⟩
      | fuel + 1 =>
        let r := computeS cholOK chsolve lambdaNplus c2 (lambdaNplus + c2) fuel
        ⟨fun _ => 0, false, 1, r.lambdaConst⟩

/-- Exact-arithmetic Cholesky success for the 1×1 Hessian `H = [[-1]]`:
`H + lam*I` is positive definite iff `-1 + lam > 0`. -/
def chol1d : ℚ → Bool := fun lam => if (0:ℚ) < -1 + lam then true else false

/-- `cho_solve` for `H = [[-1]]`, `g = [1]`: the solution of
`(-1 + lam) * s = -1`. -/
def chsolve1d : ℚ → Vec 1 := fun lam _ => -1 / (-1 + lam)

/-- Claim C3 is false of the code (a code bug): here the initial
factorization at `lambduh = 1/2` fails, and the retried factorization at
the enlarged `lambda_nplus + 2*lambda_const = 3/2` succeeds
(`chol1d (3/2) = true`, and indeed the recursive `_compute_s` call
returns flag 0), yet `_compute_s` still returns the zero step with
flag 1, because `s, L = self._compute_s(...)` unpacks the returned
3-tuple into two names, raising a `ValueError` that the bare `except`
turns into the failure return.  The claim's promised behaviour —
continue with the successful retried factorization — never happens. -/
theorem c3_retry_result_discarded :
    chol1d (1/2) = false ∧
    chol1d (1 + 2 * (1/4)) = true ∧
    computeS chol1d chsolve1d 1 (1/2) (1 + 2 * (1/4)) 9 =
      ⟨chsolve1d (3/2), true, 0, 1/2⟩ ∧
    computeS chol1d chsolve1d 1 (1/4) (1/2) 10 = ⟨fun _ => 0, false, 1, 1/2⟩ := by
  refine ⟨by norm_num [chol1d], by norm_num [chol1d], ?_, ?_⟩
  · rw [computeS]
    norm_num [chol1d]
  · rw [computeS]
    norm_num [chol1d]
    rw [computeS]
    norm_num [chol1d]

/-!
## Monotone-norm stationary branch: `_AuxiliaryProblem.solve` (lines 429-436)

```python
else:
    # Maximum or saddle point, move to the descent direction
    if eigvals_min < 0:
        s = eigvecs[0]
    # Undefined or local minimum, stay at the current point
    else:
        s = eta
```

`scipy.linalg.eigh(H)` returns ascending eigenvalues and a matrix whose
*columns* are the corresponding eigenvectors.  `eigvecs[0]` is numpy row
indexing: the *first row* — the vector of first components of all the
eigenvectors — not the first column `eigvecs[:, 0]` (the eigenvector of
the smallest eigenvalue).  The model takes the eigh output matrix and
the already-projected gradient `eta`. -/

/-- The stationary-point branch of the monotone_norm solver
(lines 429-436): `eigvecs[0]` is row 0 of the eigenvector matrix. -/
def monotoneStationaryStep {n : ℕ} (eigvalsMin : ℚ)
    (eigvecs : Matrix (Fin (n+1)) (Fin (n+1)) ℚ) (eta : Vec (n+1)) : Vec (n+1) :=
  if eigvalsMin < 0 then (fun j => eigvecs 0 j) else eta

/-- The indefinite Hessian `[[5,0,0],[0,0,1],[0,1,0]]`, with eigenvalues
`-1 ≤ 1 ≤ 5`: a saddle-point Hessian for claim C2. -/
def hessC2 : Matrix (Fin 3) (Fin 3) ℚ := !![5,0,0; 0,0,1; 0,1,0]

/-- Claim C2 is false of the code (a code bug): at a stationary point
(`eta = 0`) of `hessC2`, for *every* matrix `U` satisfying the `eigh`
contract — column `k` is an eigenvector of the ascending eigenvalue
(`-1`, `1`, `5`), columns nonzero — the step the code returns,
`eigvecs[0]` = row 0 of `U`, is nonzero but is *not* a smallest-
eigenvalue eigenvector direction (`H·s ≠ -1·s`), and it is not even a
second-order descent direction: `s·(H·s) = 0`.  The claim requires the
eigenvector of the smallest eigenvalue (`eigvecs[:, 0]`). -/
theorem c2_stationary_step_not_min_eigvec (U : Matrix (Fin 3) (Fin 3) ℚ)
    (h0 : hessC2.mulVec (fun i => U i 0) = (-1 : ℚ) • (fun i => U i 0))
    (h1 : hessC2.mulVec (fun i => U i 1) = (fun i => U i 1))
    (h2 : hessC2.mulVec (fun i => U i 2) = (5 : ℚ) • (fun i => U i 2))
    (h2nz : (fun i => U i 2) ≠ (fun _ => (0:ℚ))) :
    monotoneStationaryStep (-1) U (fun _ => 0) ≠ (fun _ => (0:ℚ)) ∧
    hessC2.mulVec (monotoneStationaryStep (-1) U (fun _ => 0)) ≠
      (-1 : ℚ) • monotoneStationaryStep (-1) U (fun _ => 0) ∧
    dot (monotoneStationaryStep (-1) U (fun _ => 0))
      (hessC2.mulVec (monotoneStationaryStep (-1) U (fun _ => 0))) = 0 := by
  have e00 : U 0 0 = 0 := by
    have h := congrFun h0 0
    simp [hessC2, Matrix.mulVec, Matrix.dotProduct, Matrix.vecHead, Matrix.vecTail, Fin.sum_univ_three] at h
    linarith
  have e01 : U 0 1 = 0 := by
    have h := congrFun h1 0
    simp [hessC2, Matrix.mulVec, Matrix.dotProduct, Matrix.vecHead, Matrix.vecTail, Fin.sum_univ_three] at h
    linarith
  have e12 : U 1 2 = 0 := by
    have ha := congrFun h2 1
    have hb := congrFun h2 2
    simp [hessC2, Matrix.mulVec, Matrix.dotProduct, Matrix.vecHead, Matrix.vecTail, Fin.sum_univ_three] at ha hb
    linarith
  have e22 : U 2 2 = 0 := by
    have ha := congrFun h2 1
    have hb := congrFun h2 2
    simp [hessC2, Matrix.mulVec, Matrix.dotProduct, Matrix.vecHead, Matrix.vecTail, Fin.sum_univ_three] at ha hb
    linarith
  have e02 : U 0 2 ≠ 0 := by
    intro hz
    apply h2nz
    funext i
    fin_cases i <;> simp [hz, e12, e22]
  have hstep : monotoneStationaryStep (-1) U (fun _ => 0) = fun j => U 0 j := by
    simp [monotoneStationaryStep]
  refine ⟨?_, ?_, ?_⟩
  · rw [hstep]
    intro hz
    exact e02 (congrFun hz 2)
  · rw [hstep]
    intro hz
    have h := congrFun hz 1
    simp [hessC2, Matrix.mulVec, Matrix.dotProduct, Matrix.vecHead, Matrix.vecTail, Fin.sum_univ_three, e00, e01] at h
    exact e02 (by linarith)
  · rw [hstep]
    simp [dot, hessC2, Matrix.mulVec, Matrix.dotProduct, Matrix.vecHead, Matrix.vecTail, Fin.sum_univ_three, e00, e01]

/-- A concrete valid (up to column scaling) `eigh`-shaped eigenvector
matrix for `hessC2`: columns `(0,1,-1)`, `(0,1,1)`, `(1,0,0)` for the
ascending eigenvalues `-1, 1, 5`. -/
def eigvecsC2 : Matrix (Fin 3) (Fin 3) ℚ := !![0,0,1; 1,1,0; -1,1,0]

/-- Witness for `c2_stationary_step_not_min_eigvec` at the concrete
eigenvector matrix `eigvecsC2`. -/
theorem c2_stationary_step_not_min_eigvec_witness :
    (hessC2.mulVec (fun i => eigvecsC2 i 0) = (-1 : ℚ) • (fun i => eigvecsC2 i 0) ∧
     hessC2.mulVec (fun i => eigvecsC2 i 1) = (fun i => eigvecsC2 i 1) ∧
     hessC2.mulVec (fun i => eigvecsC2 i 2) = (5 : ℚ) • (fun i => eigvecsC2 i 2) ∧
     (fun i => eigvecsC2 i 2) ≠ (fun _ => (0:ℚ))) ∧
    (monotoneStationaryStep (-1) eigvecsC2 (fun _ => 0) ≠ (fun _ => (0:ℚ)) ∧
     hessC2.mulVec (monotoneStationaryStep (-1) eigvecsC2 (fun _ => 0)) ≠
       (-1 : ℚ) • monotoneStationaryStep (-1) eigvecsC2 (fun _ => 0) ∧
     dot (monotoneStationaryStep (-1) eigvecsC2 (fun _ => 0))
       (hessC2.mulVec (monotoneStationaryStep (-1) eigvecsC2 (fun _ => 0))) = 0) := by
  have h0 : hessC2.mulVec (fun i => eigvecsC2 i 0) = (-1 : ℚ) • (fun i => eigvecsC2 i 0) := by
    funext i
    fin_cases i <;> simp [hessC2, eigvecsC2, Matrix.mulVec, Matrix.dotProduct, Matrix.vecHead, Matrix.vecTail, Fin.sum_univ_three]
  have h1 : hessC2.mulVec (fun i => eigvecsC2 i 1) = (fun i => eigvecsC2 i 1) := by
    funext i
    fin_cases i <;> simp [hessC2, eigvecsC2, Matrix.mulVec, Matrix.dotProduct, Matrix.vecHead, Matrix.vecTail, Fin.sum_univ_three]
  have h2 : hessC2.mulVec (fun i => eigvecsC2 i 2) = (5 : ℚ) • (fun i => eigvecsC2 i 2) := by
    funext i
    fin_cases i <;> simp [hessC2, eigvecsC2, Matrix.mulVec, Matrix.dotProduct, Matrix.vecHead, Matrix.vecTail, Fin.sum_univ_three]
  have h2nz : (fun i => eigvecsC2 i 2) ≠ (fun _ => (0:ℚ)) := by
    intro hz
    have := congrFun hz 0
    simp [eigvecsC2] at this
  exact ⟨⟨h0, h1, h2, h2nz⟩,
    c2_stationary_step_not_min_eigvec eigvecsC2 h0 h1 h2 h2nz⟩

/-!
## Monotone-norm conditioning diagnostic: `_AuxiliaryProblem.solve` (lines 383-388)

```python
eigvals, eigvecs = scipy.linalg.eigh(self.hess_x)
eigvals_min = eigvals[0]
eigvals = np.where(eigvals<=0, 1.0e-08, eigvals)
# Calculating hessian condition number for plotting
hess_cond = eigvals[-1]/eigvals[0]
```

The clamp (`np.where`) rebinds `eigvals` *before* `hess_cond` is
computed, so the reported diagnostic is the ratio of the *clamped*
last and first eigenvalues, not of the raw ones. -/

/-- The clamp `np.where(eigvals <= 0, 1.0e-08, eigvals)` (line 386). -/
def clampEigvals (l : List ℚ) : List ℚ :=
  l.map (fun e => if e ≤ 0 then 1/100000000 else e)

/-- `hess_cond = eigvals[-1]/eigvals[0]` as the code computes it
(line 388), from the clamped eigenvalue list. -/
def hessCondDiag (l : List ℚ) : ℚ :=
  (clampEigvals l).getLast?.getD 0 / (clampEigvals l).headI

/-- Modelled from the spec: the diagnostic the spec describes,
`Λ_max/Λ_min` from the raw eigenvalues before clamping (refinement
comparator for claim C4). -/
def specRawCondDiag (l : List ℚ) : ℚ := l.getLast?.getD 0 / l.headI

/-- The diagonal indefinite Hessian `[[-1,0],[0,2]]`, whose ascending
eigenvalue list is `[-1, 2]`. -/
def hessC4 : Matrix (Fin 2) (Fin 2) ℚ := !![-1,0; 0,2]

/-- Claim C4, counterexample: for the Hessian `[[-1,0],[0,2]]` (raw
ascending eigenvalues `[-1, 2]`, as the eigenvector conjuncts certify),
the code's diagnostic is `2/1e-8 = 2·10⁸`, computed after the clamp,
while the raw-eigenvalue ratio the claim describes is `-2`. -/
theorem c4_counterexample :
    hessCondDiag [-1, 2] = 200000000 ∧
    specRawCondDiag [-1, 2] = -2 ∧
    hessCondDiag [-1, 2] ≠ specRawCondDiag [-1, 2] ∧
    hessC4.mulVec (fun i => (!![1,0; 0,1] : Matrix (Fin 2) (Fin 2) ℚ) i 0) =
      (-1 : ℚ) • (fun i => (!![1,0; 0,1] : Matrix (Fin 2) (Fin 2) ℚ) i 0) ∧
    hessC4.mulVec (fun i => (!![1,0; 0,1] : Matrix (Fin 2) (Fin 2) ℚ) i 1) =
      (2 : ℚ) • (fun i => (!![1,0; 0,1] : Matrix (Fin 2) (Fin 2) ℚ) i 1) := by
  refine ⟨by norm_num [hessCondDiag, clampEigvals], by norm_num [specRawCondDiag], ?_, ?_, ?_⟩
  · norm_num [hessCondDiag, specRawCondDiag, clampEigvals]
  · funext i
    fin_cases i <;> simp [hessC4, Matrix.mulVec, Matrix.dotProduct, Matrix.vecHead, Matrix.vecTail, Fin.sum_univ_two]
  · funext i
    fin_cases i <;> simp [hessC4, Matrix.mulVec, Matrix.dotProduct, Matrix.vecHead, Matrix.vecTail, Fin.sum_univ_two]

/-- Claim C4 (amended): the reported diagnostic is
`eigvals[-1]/eigvals[0]` of the *clamped* eigenvalue list; when the
smallest raw eigenvalue is positive (ascending order, head positive) the
clamp changes nothing and the diagnostic coincides with the raw ratio
`Λ_max/Λ_min`. -/
theorem c4_amended_clamped_diagnostic (l : List ℚ) (hne : l ≠ [])
    (hsorted : l.Sorted (· ≤ ·)) (hpos : 0 < l.headI) :
    clampEigvals l = l ∧ hessCondDiag l = specRawCondDiag l := by
  have hall : ∀ x ∈ l, 0 < x := by
    cases l with
    | nil => simp at hne
    | cons a t =>
      intro x hx
      simp only [List.headI] at hpos
      rcases List.mem_cons.mp hx with h | h
      · rw [h]; exact hpos
      · exact lt_of_lt_of_le hpos ((List.sorted_cons.mp hsorted).1 x h)
  have hgen : ∀ (m : List ℚ), (∀ x ∈ m, 0 < x) → clampEigvals m = m := by
    intro m
    induction m with
    | nil => intro _; rfl
    | cons a t ih =>
      intro hm
      have ha : 0 < a := hm a (List.mem_cons_self a t)
      have ht := ih (fun x hx => hm x (List.mem_cons_of_mem a hx))
      simp only [clampEigvals, List.map_cons] at ht ⊢
      rw [if_neg (not_le.mpr ha), ht]
  have hclamp := hgen l hall
  exact ⟨hclamp, by unfold hessCondDiag specRawCondDiag; rw [hclamp]⟩

/-- Witness for `c4_amended_clamped_diagnostic` at the positive
ascending eigenvalue list `[1, 2]`. -/
theorem c4_amended_clamped_diagnostic_witness :
    ([(1:ℚ), 2] ≠ []) ∧ List.Sorted (· ≤ ·) [(1:ℚ), 2] ∧
    (0:ℚ) < ([(1:ℚ), 2]).headI ∧
    clampEigvals [(1:ℚ), 2] = [(1:ℚ), 2] ∧
    hessCondDiag [(1:ℚ), 2] = specRawCondDiag [(1:ℚ), 2] := by
  have h := c4_amended_clamped_diagnostic [(1:ℚ), 2] (by simp)
    (by norm_num [List.sorted_cons]) (by norm_num)
  exact ⟨by simp, by norm_num [List.sorted_cons], by norm_num, h.1, h.2⟩

/-!
## Trust-region hard case: `_AuxiliaryProblem.solve` (lines 357-366)

```python
Lambda, U = np.linalg.eigh(self.H_lambda(self.lambda_nplus))
s_cri = -U.dot(np.linalg.pinv(np.diag(Lambda))).dot(U.T).dot(self.grad_x)
alpha = max(np.roots([np.dot(U[:, 0], U[:, 0]),
                    2*np.dot(U[:, 0], s_cri), np.dot(s_cri, s_cri)-4*self.lambda_nplus**2/self.M**2]))
s = s_cri + alpha*U[:, 0]
```

The step is `s_crit + α·u₁` where `α` is the larger root of the
quadratic with the three coefficients below. -/

/-- The quadratic coefficient `np.dot(U[:,0], U[:,0])` (line 363). -/
def hardCaseQuadA {n : ℕ} (u1 : Vec n) : ℚ := dot u1 u1

/-- The quadratic coefficient `2*np.dot(U[:,0], s_cri)` (line 364). -/
def hardCaseQuadB {n : ℕ} (u1 sCrit : Vec n) : ℚ := 2 * dot u1 sCrit

/-- The quadratic coefficient
`np.dot(s_cri, s_cri) - 4*lambda_nplus**2/M**2` (line 364). -/
def hardCaseQuadC {n : ℕ} (sCrit : Vec n) (lambdaNplus M : ℚ) : ℚ :=
  dot sCrit sCrit - 4 * lambdaNplus ^ 2 / M ^ 2

/-- The hard-case step `s = s_cri + alpha*U[:, 0]` (line 365). -/
def hardCaseStep {n : ℕ} (sCrit u1 : Vec n) (alpha : ℚ) : Vec n :=
  fun i => sCrit i + alpha * u1 i

/-- Bilinear expansion of the squared norm of the hard-case step. -/
theorem dot_hardCaseStep {n : ℕ} (sCrit u1 : Vec n) (alpha : ℚ) :
    dot (hardCaseStep sCrit u1 alpha) (hardCaseStep sCrit u1 alpha) =
      dot sCrit sCrit + 2 * alpha * dot u1 sCrit + alpha ^ 2 * dot u1 u1 := by
  unfold dot hardCaseStep
  rw [Finset.mul_sum, Finset.mul_sum, ← Finset.sum_add_distrib, ← Finset.sum_add_distrib]
  refine Finset.sum_congr rfl fun i _ => by ring

/-- Claim C7: whenever `alpha` is a root of the hard-case quadratic —
in particular when it is the larger root the code picks — the returned
step satisfies `‖s‖² = 4·lambda_nplus²/M²` exactly in exact arithmetic,
i.e. `‖s‖ = 2·lambda_nplus/M`. -/
theorem c7_hard_case_step_norm {n : ℕ} (u1 sCrit : Vec n)
    (lambdaNplus M alpha : ℚ)
    (hroot : hardCaseQuadA u1 * alpha ^ 2 + hardCaseQuadB u1 sCrit * alpha +
      hardCaseQuadC sCrit lambdaNplus M = 0) :
    dot (hardCaseStep sCrit u1 alpha) (hardCaseStep sCrit u1 alpha) =
      4 * lambdaNplus ^ 2 / M ^ 2 := by
  rw [dot_hardCaseStep]
  unfold hardCaseQuadA hardCaseQuadB hardCaseQuadC at hroot
  linarith

/-- Witness for `c7_hard_case_step_norm`: `u₁ = (1,0)`,
`s_crit = (0,0)`, `lambda_nplus = 1`, `M = 1`; the larger root of
`α² - 4 = 0` is `α = 2` and the step `(2,0)` has squared norm `4`. -/
theorem c7_hard_case_step_norm_witness :
    (hardCaseQuadA ![(1:ℚ), 0] * 2 ^ 2 +
      hardCaseQuadB ![(1:ℚ), 0] ![(0:ℚ), 0] * 2 +
      hardCaseQuadC ![(0:ℚ), 0] 1 1 = 0) ∧
    dot (hardCaseStep ![(0:ℚ), 0] ![(1:ℚ), 0] 2)
      (hardCaseStep ![(0:ℚ), 0] ![(1:ℚ), 0] 2) = 4 * 1 ^ 2 / 1 ^ 2 := by
  have hroot : hardCaseQuadA ![(1:ℚ), 0] * 2 ^ 2 +
      hardCaseQuadB ![(1:ℚ), 0] ![(0:ℚ), 0] * 2 +
      hardCaseQuadC ![(0:ℚ), 0] 1 1 = 0 := by
    norm_num [hardCaseQuadA, hardCaseQuadB, hardCaseQuadC, dot, Fin.sum_univ_two]
  exact ⟨hroot, c7_hard_case_step_norm ![(1:ℚ), 0] ![(0:ℚ), 0] 1 1 2 hroot⟩

/-!
## Convergence check: `Algorithm._check_convergence` (lines 152-174)

The three criteria use the objective values at the old and new point,
the norm of the freshly updated gradient, and the Newton decrement
`grad·pinv(hess)·grad`; those library-computed scalars are the model's
inputs.  A criterion string that matches none of the three falls off
the end of the Python function and returns `None` (`Option.none`). -/

/-- `Algorithm._check_convergence` (lines 152-174): `fXold`, `fXnew` are
`f(x_old)`, `f(x_new)`; `gradNorm` is `np.linalg.norm(self.grad_x)`;
`lambdaSq` is the decrement `grad·pinv(hess)·grad`. -/
def checkConvergence (convCriterion : String) (fXold fXnew gradNorm convTol
    lambdaSq : ℚ) : Option Bool :=
  if convCriterion = "function" then
    if fXold < fXnew then some true else some false
  else if convCriterion = "gradient" then
    if gradNorm ≤ convTol then some true else some false
  else if convCriterion = "decrement" then
    if lambdaSq * 1 / 2 ≤ convTol then some true else some false
  else none

/-- Claim C8: with `conv_criterion = 'function'` the convergence check
returns `True` exactly when `f(x_new) > f(x_old)` — it triggers
precisely when the objective got worse, and on no other condition. -/
theorem c8_function_criterion (fXold fXnew gradNorm convTol lambdaSq : ℚ) :
    checkConvergence "function" fXold fXnew gradNorm convTol lambdaSq =
      some true ↔ fXold < fXnew := by
  unfold checkConvergence
  simp only [if_pos rfl]
  by_cases h : fXold < fXnew <;> simp [h]

end CubicRegSpec
